import Mathlib

/-!
Verification of the bitnami-pgvector version-resolution core.

This file gives a shallow embedding, in Lean 4, of the version-resolution
pipeline of the bitnami-pgvector repository (`src/getVars.ts`, `src/build.ts`
and their tests), and proves the functional-correctness, error-handling and
determinism properties stated about it.

The embedding follows the TypeScript source:

* `TagRecord` models the Docker Hub tag records `{ name, last_updated }`
  (the timestamp is modelled as the epoch value `new Date(...).getTime()`
  that the code compares).
* `sortByLastModifiedDesc` models the stable JavaScript
  `Array.prototype.sort((a, b) => dateB - dateA)` used on tag lists.
* `fetchLatestBitnamiTag` models the filter/sort/head selection of the base
  Bitnami PostgreSQL tag; a fetch outcome is `Option (List TagRecord)` with
  `none` for an unavailable source (non-OK HTTP status or thrown error).
* The pg_search (ParadeDB) selection, the version hash and the hash tag are
  modelled from the spec and the repository's own tests, because the revision
  of `getVars.ts` that implements them is not part of the snapshot (only its
  tests in `getVars.test.ts` and its caller `build.ts` are).
* `getVars` models one resolution run as a pure function of the argument,
  the environment, the upstream registry state and the outcome of the
  unguarded `git rev-parse --show-toplevel` shell invocation (whose thrown
  error on a non-zero exit status escapes the run and terminates the
  process, `RunAbort.gitInvocationFailed`); `runBuildDecision` models the
  skip/build decision of `runBuild` in `src/build.ts`.
-/

/-- A Docker Hub tag record `{ name, last_updated }` as consumed by
`getVars.ts`; `lastModified` is the numeric timestamp obtained from
`new Date(tag.last_updated).getTime()`. -/
structure TagRecord where
  name : String
  lastModified : Nat
deriving Repr, DecidableEq

/-- One insertion step of the stable descending sort: the incoming element is
placed before the first element whose timestamp it reaches or exceeds, which
keeps earlier elements first on ties exactly like the stable JavaScript
`Array.prototype.sort`. -/
def insertDesc (t : TagRecord) : List TagRecord → List TagRecord
  | [] => [t]
  | u :: us =>
    if u.lastModified ≤ t.lastModified then t :: u :: us
    else u :: insertDesc t us

/-- Model of `tags.sort((a, b) => new Date(b.last_updated).getTime() -
new Date(a.last_updated).getTime())` from `getVars.ts`: a stable sort by
`lastModified`, most recent first. -/
def sortByLastModifiedDesc : List TagRecord → List TagRecord
  | [] => []
  | t :: ts => insertDesc t (sortByLastModifiedDesc ts)

theorem insertDesc_ne_nil (t : TagRecord) (l : List TagRecord) :
    insertDesc t l ≠ [] := by
  cases l with
  | nil => simp [insertDesc]
  | cons u us =>
    by_cases h : u.lastModified ≤ t.lastModified <;> simp [insertDesc, h]

theorem sortByLastModifiedDesc_eq_nil_iff (l : List TagRecord) :
    sortByLastModifiedDesc l = [] ↔ l = [] := by
  cases l with
  | nil => simp [sortByLastModifiedDesc]
  | cons t ts =>
    simp only [sortByLastModifiedDesc]
    exact ⟨fun h => absurd h (insertDesc_ne_nil t _), fun h => by cases h⟩

theorem mem_insertDesc (a t : TagRecord) (l : List TagRecord) :
    a ∈ insertDesc t l ↔ a = t ∨ a ∈ l := by
  induction l with
  | nil => simp [insertDesc]
  | cons u us ih =>
    by_cases h : u.lastModified ≤ t.lastModified
    · simp [insertDesc, h]
    · simp only [insertDesc, if_neg h, List.mem_cons, ih]
      tauto

theorem mem_sortByLastModifiedDesc (a : TagRecord) (l : List TagRecord) :
    a ∈ sortByLastModifiedDesc l ↔ a ∈ l := by
  induction l with
  | nil => simp [sortByLastModifiedDesc]
  | cons t ts ih =>
    simp only [sortByLastModifiedDesc, mem_insertDesc, List.mem_cons, ih]

/-- The head of the descending sort is an element of the original list whose
timestamp is greatest. -/
theorem sortByLastModifiedDesc_head_max (l : List TagRecord) (h : TagRecord)
    (rest : List TagRecord) (heq : sortByLastModifiedDesc l = h :: rest) :
    h ∈ l ∧ ∀ u ∈ l, u.lastModified ≤ h.lastModified := by
  induction l generalizing h rest with
  | nil => simp [sortByLastModifiedDesc] at heq
  | cons a as ih =>
    simp only [sortByLastModifiedDesc] at heq
    cases hs : sortByLastModifiedDesc as with
    | nil =>
      have has : as = [] := (sortByLastModifiedDesc_eq_nil_iff as).mp hs
      rw [hs] at heq
      simp only [insertDesc] at heq
      cases heq
      subst has
      exact ⟨List.mem_cons_self _ _, by simp⟩
    | cons b bs =>
      rw [hs] at heq
      have hb := ih b bs hs
      by_cases hle : b.lastModified ≤ a.lastModified
      · simp only [insertDesc, if_pos hle] at heq
        cases heq
        refine ⟨List.mem_cons_self _ _, ?_⟩
        intro u hu
        rcases List.mem_cons.mp hu with rfl | hu
        · exact le_refl _
        · exact le_trans (hb.2 u hu) hle
      · simp only [insertDesc, if_neg hle] at heq
        cases heq
        refine ⟨List.mem_cons_of_mem _ hb.1, ?_⟩
        intro u hu
        rcases List.mem_cons.mp hu with rfl | hu
        · exact le_of_lt (Nat.lt_of_not_le hle)
        · exact hb.2 u hu

/-! ## Base-component (Bitnami PostgreSQL) selection, from `src/getVars.ts` -/

/-- Default base tag `DEFAULT_BITNAMI_POSTGRES_VERSION` from `getVars.ts`. -/
def DEFAULT_BITNAMI_POSTGRES_VERSION : String := "17.2.0-debian-12-r1"

/-- Default pgvector version `DEFAULT_PGVECTOR_VERSION` from `getVars.ts`. -/
def DEFAULT_PGVECTOR_VERSION : String := "0.8.0"

/-- `s.startsWith(p)` of JavaScript, computed on the character lists of the
two strings. -/
def strStartsWith (s p : String) : Bool := p.data.isPrefixOf s.data

/-- `s.endsWith(p)` of JavaScript, computed on the character lists of the
two strings. -/
def strEndsWith (s p : String) : Bool := p.data.isSuffixOf s.data

/-- Substring search underlying JavaScript `s.includes(sub)`. -/
def containsSub (sub : List Char) : List Char → Bool
  | [] => sub.isEmpty
  | c :: cs => sub.isPrefixOf (c :: cs) || containsSub sub cs

/-- The survivor predicate of `fetchLatestBitnamiTag`:
`tag.name.startsWith(tagPrefix) && tag.name.includes("-debian-")` where
`tagPrefix` is the major version line followed by a dot. -/
def isBitnamiSurvivor (pgMajorVersion : String) (t : TagRecord) : Bool :=
  strStartsWith t.name (pgMajorVersion ++ ".") &&
    containsSub "-debian-".data t.name.data

/-- Model of `fetchLatestBitnamiTag` from `getVars.ts`: for an available
response, filter to the Debian tags of the requested major line, sort by
`last_updated` descending and take the first; `none` models every failure
(`Unavailable` fetch, or no matching tag). -/
def fetchLatestBitnamiTag (response : Option (List TagRecord))
    (pgMajorVersion : String) : Option String :=
  match response with
  | none => none
  | some tags =>
    match sortByLastModifiedDesc (tags.filter (isBitnamiSurvivor pgMajorVersion)) with
    | [] => none
    | t :: _ => some t.name

/-- The caller side of the base-tag selection in `getVars`: a successful
selection is used as is, otherwise the hard-coded default is substituted and
a warning is flagged (the Boolean component). -/
def resolveBitnamiName (response : Option (List TagRecord))
    (pgMajorVersion : String) : String × Bool :=
  match fetchLatestBitnamiTag response pgMajorVersion with
  | some tag => (tag, false)
  | none => (DEFAULT_BITNAMI_POSTGRES_VERSION, true)

/-- **C5.** The base-component policy: the selection keeps only tags whose
name starts with `{majorVersionLine}.` and contains `-debian-`, and among the
survivors returns one with the most recent `lastModified` without a warning;
if the fetch was unavailable or the survivor set is empty it returns the
hard-coded default base tag together with a warning, and in every case it
returns a value rather than aborting. -/
theorem bitnami_selection_policy (response : Option (List TagRecord))
    (pgMajorVersion : String) :
    (response = none →
      resolveBitnamiName response pgMajorVersion =
        (DEFAULT_BITNAMI_POSTGRES_VERSION, true)) ∧
    (∀ tags, response = some tags →
      (tags.filter (isBitnamiSurvivor pgMajorVersion) = [] →
        resolveBitnamiName response pgMajorVersion =
          (DEFAULT_BITNAMI_POSTGRES_VERSION, true)) ∧
      (∀ t, t ∈ tags.filter (isBitnamiSurvivor pgMajorVersion) →
        ∃ s, s ∈ tags ∧ isBitnamiSurvivor pgMajorVersion s = true ∧
          (∀ u ∈ tags, isBitnamiSurvivor pgMajorVersion u = true →
            u.lastModified ≤ s.lastModified) ∧
          resolveBitnamiName response pgMajorVersion = (s.name, false))) := by
  constructor
  · intro h
    subst h
    rfl
  · intro tags h
    subst h
    constructor
    · intro hempty
      simp [resolveBitnamiName, fetchLatestBitnamiTag, hempty,
        sortByLastModifiedDesc]
    · intro t ht
      cases hs : sortByLastModifiedDesc (tags.filter (isBitnamiSurvivor pgMajorVersion)) with
      | nil =>
        rw [sortByLastModifiedDesc_eq_nil_iff] at hs
        rw [hs] at ht
        simp at ht
      | cons s rest =>
        have hmax := sortByLastModifiedDesc_head_max _ s rest hs
        have hsmem := List.mem_filter.mp hmax.1
        refine ⟨s, hsmem.1, hsmem.2, ?_, ?_⟩
        · intro u hu hsu
          exact hmax.2 u (List.mem_filter.mpr ⟨hu, hsu⟩)
        · simp [resolveBitnamiName, fetchLatestBitnamiTag, hs]

/-- Witness for `bitnami_selection_policy`: an unavailable fetch for line
`17` concretely yields the hard-coded default together with a warning. -/
theorem bitnami_selection_policy_witness :
    resolveBitnamiName none "17" = (DEFAULT_BITNAMI_POSTGRES_VERSION, true) :=
  (bitnami_selection_policy none "17").1 rfl

/-! ## Extension (pg_search / ParadeDB) selection

The revision of `getVars.ts` that resolves the pg_search tag is not part of
the snapshot; only its unit tests (`getVars.test.ts`) and its caller
(`build.ts`) are.  The selection below is therefore modelled from the spec
and validated against the expectations of those tests. -/

/-- The major-version suffix `-pg{line}` used by ParadeDB tags. -/
def pgSuffix (line : String) : String := "-pg" ++ line

/-- Modelled from the spec: the hard-coded default pg_search version literal
of the missing `getVars.ts` revision (`DEFAULT_PG_SEARCH_VERSION`, named
`0.15.18` by the tests). -/
def DEFAULT_PG_SEARCH_VERSION : String := "0.15.18"

/-- Modelled from the spec: a tag name counts as a *stable, fully-numeric*
version for the given suffix when it ends with the suffix and the part
before the suffix consists of digits and dots only (which rejects
pre-release markers such as `-rc.0` and the alias `latest`). -/
def isStablePgSearchName (suffix name : String) : Bool :=
  strEndsWith name suffix &&
    (let core := name.data.take (name.data.length - suffix.data.length)
     !core.isEmpty && core.all fun c => c.isDigit || c == '.')

/-- Modelled from the spec: the three-tier pg_search selection of the missing
`getVars.ts` revision.  Filter to tags whose name ends with `-pg{line}`;
prefer the most-recently-modified stable fully-numeric tag; otherwise fall
back to the alias tag literally named `latest-pg{line}` when present;
otherwise (also when the fetch was unavailable, `response = none`) return
the hard-coded default literal and flag a warning (the Boolean). -/
def selectPgSearchName (response : Option (List TagRecord))
    (line : String) : String × Bool :=
  let suffix := pgSuffix line
  match response with
  | none => (DEFAULT_PG_SEARCH_VERSION ++ suffix, true)
  | some tags =>
    let matching := tags.filter fun t => strEndsWith t.name suffix
    match sortByLastModifiedDesc
        (matching.filter fun t => isStablePgSearchName suffix t.name) with
    | t :: _ => (t.name, false)
    | [] =>
      if matching.any fun t => t.name == "latest" ++ suffix then
        ("latest" ++ suffix, false)
      else (DEFAULT_PG_SEARCH_VERSION ++ suffix, true)

theorem isStablePgSearchName_endsWith {suffix name : String}
    (h : isStablePgSearchName suffix name = true) :
    strEndsWith name suffix = true := by
  unfold isStablePgSearchName at h
  exact (Bool.and_eq_true_iff.mp h).1

/-- Filtering the suffix survivors again by stability is the same as
filtering the whole list by stability, because stability implies the suffix
condition. -/
theorem filter_matching_filter_stable (suffix : String)
    (tags : List TagRecord) :
    ((tags.filter fun t => strEndsWith t.name suffix).filter
        fun t => isStablePgSearchName suffix t.name) =
      tags.filter fun t => isStablePgSearchName suffix t.name := by
  induction tags with
  | nil => rfl
  | cons t ts ih =>
    cases he : strEndsWith t.name suffix with
    | true =>
      cases hs : isStablePgSearchName suffix t.name with
      | true => simp [List.filter_cons, he, hs, ih]
      | false => simp [List.filter_cons, he, hs, ih]
    | false =>
      have hs : isStablePgSearchName suffix t.name = false := by
        cases hst : isStablePgSearchName suffix t.name with
        | false => rfl
        | true => rw [isStablePgSearchName_endsWith hst] at he; cases he
      simp [List.filter_cons, he, hs, ih]

/-- The alias tag name `latest-pg{line}` always passes the suffix filter. -/
theorem strEndsWith_append (a b : String) : strEndsWith (a ++ b) b = true := by
  unfold strEndsWith
  rw [String.data_append, List.isSuffixOf_iff_suffix]
  exact List.suffix_append a.data b.data

/-- **C1.** The pg_search selection applies the three-tier fallback in this
exact order: a most-recently-modified stable fully-numeric tag ending in the
suffix when one exists; otherwise the alias tag literally named
`latest-pg{line}` when present; otherwise (including an unavailable fetch)
the hard-coded default literal `{default version}-pg{line}` together with a
warning.  In particular, the candidates
`{0.15.19-rc.0-pg17, 0.15.18-pg17, latest-pg17}` with suffix `-pg17` select
`0.15.18-pg17`, and the candidates `{0.14.6-rc.1-pg16, latest-pg16}` with
suffix `-pg16` select `latest-pg16`. -/
theorem pg_search_selection_three_tier (response : Option (List TagRecord))
    (line : String) :
    (response = none →
      selectPgSearchName response line =
        (DEFAULT_PG_SEARCH_VERSION ++ pgSuffix line, true)) ∧
    (∀ tags, response = some tags →
      ((∃ t ∈ tags, isStablePgSearchName (pgSuffix line) t.name = true) →
        ∃ s ∈ tags, isStablePgSearchName (pgSuffix line) s.name = true ∧
          (∀ u ∈ tags, isStablePgSearchName (pgSuffix line) u.name = true →
            u.lastModified ≤ s.lastModified) ∧
          selectPgSearchName response line = (s.name, false)) ∧
      ((∀ t ∈ tags, isStablePgSearchName (pgSuffix line) t.name = false) →
        ((∃ t ∈ tags, t.name = "latest" ++ pgSuffix line) →
          selectPgSearchName response line =
            ("latest" ++ pgSuffix line, false)) ∧
        ((∀ t ∈ tags, t.name ≠ "latest" ++ pgSuffix line) →
          selectPgSearchName response line =
            (DEFAULT_PG_SEARCH_VERSION ++ pgSuffix line, true)))) ∧
    selectPgSearchName
      (some [⟨"0.15.19-rc.0-pg17", 427⟩, ⟨"latest-pg17", 426⟩,
             ⟨"0.15.18-pg17", 425⟩]) "17" = ("0.15.18-pg17", false) ∧
    selectPgSearchName
      (some [⟨"latest-pg16", 320⟩, ⟨"0.14.6-rc.1-pg16", 318⟩]) "16" =
      ("latest-pg16", false) := by
  refine ⟨?_, ?_, by decide, by decide⟩
  · intro h; subst h; rfl
  · intro tags h
    subst h
    constructor
    · intro hex
      rcases hex with ⟨t, ht, hst⟩
      have hne : tags.filter
          (fun t => isStablePgSearchName (pgSuffix line) t.name) ≠ [] := by
        intro hnil
        rw [List.filter_eq_nil_iff] at hnil
        exact hnil t ht hst
      cases hs : sortByLastModifiedDesc
          (tags.filter fun t => isStablePgSearchName (pgSuffix line) t.name) with
      | nil => exact absurd ((sortByLastModifiedDesc_eq_nil_iff _).mp hs) hne
      | cons s rest =>
        have hmax := sortByLastModifiedDesc_head_max _ s rest hs
        have hsmem := List.mem_filter.mp hmax.1
        refine ⟨s, hsmem.1, hsmem.2, ?_, ?_⟩
        · intro u hu hsu
          exact hmax.2 u (List.mem_filter.mpr ⟨hu, hsu⟩)
        · simp only [selectPgSearchName]
          rw [filter_matching_filter_stable, hs]
    · intro hall
      have hfil : (tags.filter
          fun t => isStablePgSearchName (pgSuffix line) t.name) = [] := by
        rw [List.filter_eq_nil_iff]
        intro t ht
        rw [hall t ht]
        simp
      constructor
      · intro hex
        rcases hex with ⟨t, ht, hname⟩
        have hmem : t ∈ tags.filter
            fun u => strEndsWith u.name (pgSuffix line) := by
          refine List.mem_filter.mpr ⟨ht, ?_⟩
          rw [hname]
          exact strEndsWith_append "latest" (pgSuffix line)
        have hany : (tags.filter
            fun u => strEndsWith u.name (pgSuffix line)).any
            (fun u => u.name == "latest" ++ pgSuffix line) = true := by
          rw [List.any_eq_true]
          exact ⟨t, hmem, beq_iff_eq.mpr hname⟩
        simp only [selectPgSearchName]
        rw [filter_matching_filter_stable, hfil]
        simp only [sortByLastModifiedDesc, hany, if_true]
      · intro hnone
        have hany : (tags.filter
            fun u => strEndsWith u.name (pgSuffix line)).any
            (fun u => u.name == "latest" ++ pgSuffix line) = false := by
          rw [Bool.eq_false_iff]
          intro hc
          rw [List.any_eq_true] at hc
          rcases hc with ⟨t, htm, hbeq⟩
          exact hnone t (List.mem_filter.mp htm).1 (eq_of_beq hbeq)
        simp only [selectPgSearchName]
        rw [filter_matching_filter_stable, hfil]
        simp [sortByLastModifiedDesc, hany]

/-- Witness for `pg_search_selection_three_tier`: an unavailable fetch for
line `17` concretely yields the hard-coded default with a warning. -/
theorem pg_search_selection_three_tier_witness :
    selectPgSearchName none "17" = ("0.15.18-pg17", true) :=
  (pg_search_selection_three_tier none "17").1 rfl

/-! ## SHA-256

The missing `getVars.ts` revision hashes the canonical version string with
`crypto.subtle.digest("SHA-256", new TextEncoder().encode(s))` and
hex-encodes the digest (shown by the test setup in `getVars.test.ts`).  The
algorithm below is the FIPS 180-4 SHA-256 over byte lists, with 32-bit words
represented as natural numbers reduced modulo `2 ^ 32`. -/

/-- Truncation to a 32-bit word. -/
def w32 (x : Nat) : Nat := x % 4294967296

/-- Right rotation of a 32-bit word. -/
def rotr32 (n x : Nat) : Nat := w32 ((x >>> n) ||| (x <<< (32 - n)))

/-- Big sigma-0 of FIPS 180-4. -/
def bigSigmaZero (x : Nat) : Nat := rotr32 2 x ^^^ rotr32 13 x ^^^ rotr32 22 x

/-- Big sigma-1 of FIPS 180-4. -/
def bigSigmaOne (x : Nat) : Nat := rotr32 6 x ^^^ rotr32 11 x ^^^ rotr32 25 x

/-- Small sigma-0 of FIPS 180-4. -/
def smallSigmaZero (x : Nat) : Nat := rotr32 7 x ^^^ rotr32 18 x ^^^ (x >>> 3)

/-- Small sigma-1 of FIPS 180-4. -/
def smallSigmaOne (x : Nat) : Nat := rotr32 17 x ^^^ rotr32 19 x ^^^ (x >>> 10)

/-- The 64 SHA-256 round constants. -/
def sha256K : List Nat :=
  [1116352408, 1899447441, 3049323471, 3921009573, 961987163,
   1508970993, 2453635748, 2870763221, 3624381080, 310598401,
   607225278, 1426881987, 1925078388, 2162078206, 2614888103,
   3248222580, 3835390401, 4022224774, 264347078, 604807628,
   770255983, 1249150122, 1555081692, 1996064986, 2554220882,
   2821834349, 2952996808, 3210313671, 3336571891, 3584528711,
   113926993, 338241895, 666307205, 773529912, 1294757372,
   1396182291, 1695183700, 1986661051, 2177026350, 2456956037,
   2730485921, 2820302411, 3259730800, 3345764771, 3516065817,
   3600352804, 4094571909, 275423344, 430227734, 506948616,
   659060556, 883997877, 958139571, 1322822218, 1537002063,
   1747873779, 1955562222, 2024104815, 2227730452, 2361852424,
   2428436474, 2756734187, 3204031479, 3329325298]

/-- The SHA-256 initial hash value. -/
def sha256H0 : List Nat :=
  [1779033703, 3144134277, 1013904242, 2773480762, 1359893119,
   2600822924, 528734635, 1541459225]

/-- Message-schedule extension, keeping the already-produced words in
reverse order (most recent first) so each new word reads positions 1, 6, 14
and 15. -/
def schedExtend (rW : List Nat) : Nat → List Nat
  | 0 => rW
  | k + 1 =>
    schedExtend
      (w32 (smallSigmaOne (rW.getD 1 0) + rW.getD 6 0 +
        smallSigmaZero (rW.getD 14 0) + rW.getD 15 0) :: rW) k

/-- The full 64-word message schedule of one block. -/
def sha256Schedule (block : List Nat) : List Nat :=
  (schedExtend block.reverse 48).reverse

/-- One SHA-256 compression round on the working variables
`[a, b, c, d, e, f, g, h]`. -/
def sha256Round (s : List Nat) (k w : Nat) : List Nat :=
  match s with
  | [a, b, c, d, e, f, g, h] =>
    let ch := (e &&& f) ^^^ ((4294967295 ^^^ e) &&& g)
    let maj := (a &&& b) ^^^ (a &&& c) ^^^ (b &&& c)
    let t1 := w32 (h + bigSigmaOne e + ch + k + w)
    let t2 := w32 (bigSigmaZero a + maj)
    [w32 (t1 + t2), a, b, c, w32 (d + t1), e, f, g]
  | _ => s

/-- Compression of one 16-word block into the running hash value. -/
def sha256Compress (h : List Nat) (block : List Nat) : List Nat :=
  let final := (sha256K.zip (sha256Schedule block)).foldl
    (fun s kw => sha256Round s kw.1 kw.2) h
  h.zipWith (fun a b => w32 (a + b)) final

/-- Big-endian bytes of a value, most significant first. -/
def toBytesBE (n v : Nat) : List Nat :=
  (List.range n).map fun i => (v >>> (8 * (n - 1 - i))) % 256

/-- Big-endian grouping of bytes into 32-bit words. -/
def bytesToWords : List Nat → List Nat
  | a :: b :: c :: d :: rest =>
    (a * 16777216 + b * 65536 + c * 256 + d) :: bytesToWords rest
  | _ => []

/-- SHA-256 padding: `0x80`, zeros, and the 64-bit big-endian bit length. -/
def sha256Pad (msg : List Nat) : List Nat :=
  msg ++ [128] ++ List.replicate ((64 - (msg.length + 9) % 64) % 64) 0 ++
    toBytesBE 8 (8 * msg.length)

/-- Splitting into 64-byte blocks, with a structural fuel argument (one unit
of fuel per block is enough since every block consumes at least one byte). -/
def chunks64Go : Nat → List Nat → List (List Nat)
  | 0, _ => []
  | _, [] => []
  | fuel + 1, l => l.take 64 :: chunks64Go fuel (l.drop 64)

/-- Splitting the padded message into 64-byte blocks. -/
def chunks64 (l : List Nat) : List (List Nat) := chunks64Go l.length l

/-- The eight 32-bit words of the SHA-256 digest of a byte list. -/
def sha256Words (msg : List Nat) : List Nat :=
  (chunks64 (sha256Pad msg)).foldl
    (fun h blk => sha256Compress h (bytesToWords blk)) sha256H0

/-- Lower-case hexadecimal digit. -/
def hexChar (n : Nat) : Char := "0123456789abcdef".data.getD n '0'

/-- Eight hex characters of a 32-bit word, most significant first. -/
def wordToHex (w : Nat) : List Char :=
  (List.range 8).map fun i => hexChar ((w >>> (4 * (7 - i))) % 16)

/-- The hex-encoded SHA-256 digest of a byte list, as produced by the
JavaScript `hashArray.map(b => b.toString(16).padStart(2, "0")).join("")`. -/
def sha256Hex (msg : List Nat) : String :=
  String.mk ((sha256Words msg).foldr (fun w acc => wordToHex w ++ acc) [])

/-- UTF-8 bytes of one character, as produced by `TextEncoder`. -/
def charUtf8 (c : Char) : List Nat :=
  let n := c.toNat
  if n < 128 then [n]
  else if n < 2048 then [192 + n / 64, 128 + n % 64]
  else if n < 65536 then
    [224 + n / 4096, 128 + n / 64 % 64, 128 + n % 64]
  else
    [240 + n / 262144, 128 + n / 4096 % 64, 128 + n / 64 % 64, 128 + n % 64]

/-- UTF-8 encoding of a string, as produced by `new TextEncoder().encode`. -/
def utf8Bytes (s : String) : List Nat :=
  s.data.foldr (fun c acc => charUtf8 c ++ acc) []

/-! ## The resolution run: `getVars` -/

/-- Modelled from the spec and the test setup of the missing `getVars.ts`
revision: the canonical delimited version string
`pg:{line}-pgvector:{pgvector}-pgsearch:{pgsearch}` whose SHA-256 digest,
hex-encoded, is the version fingerprint (`versionHash`). -/
def versionFingerprint (line pgvector pgsearch : String) : String :=
  sha256Hex (utf8Bytes
    ("pg:" ++ line ++ "-pgvector:" ++ pgvector ++ "-pgsearch:" ++ pgsearch))

/-- The resolved version set of one run: the major line, the base Bitnami
tag, and the two extension tags (pgvector and pg_search). -/
structure ResolvedVersionSet where
  majorVersionLine : String
  baseComponentTag : String
  extensionATag : String
  extensionBTag : String
deriving Repr, DecidableEq

/-- The canonical delimited string of a resolved version set; only the three
semantic version fields participate, the base component tag does not. -/
def canonicalVersionString (r : ResolvedVersionSet) : String :=
  "pg:" ++ r.majorVersionLine ++ "-pgvector:" ++ r.extensionATag ++
    "-pgsearch:" ++ r.extensionBTag

/-- The build fingerprint of a resolved version set. -/
def fingerprint (r : ResolvedVersionSet) : String :=
  sha256Hex (utf8Bytes (canonicalVersionString r))

/-- Outcome of one `docker manifest inspect` invocation run with
`.quiet().nothrow()`: either an exit code, or a thrown invocation error. -/
inductive InspectOutcome where
  | exited (code : Int)
  | threw
deriving Repr, DecidableEq

/-- Model of `checkImageExists` from `getVars.ts`: exit status `0` means the
image exists; any other exit status, and a thrown invocation error, mean it
does not.  The function is total, so no error propagates to the caller. -/
def checkImageExists : InspectOutcome → Bool
  | .exited code => code == 0
  | .threw => false

/-- The environment variables read by `getVars.ts`; `none` models an unset
variable, `some ""` a variable set to the empty string. -/
structure EnvVars where
  pgMajorVersionVar : Option String
  pgvectorVersionVar : Option String
  registryVar : Option String
  repoNameVar : Option String
deriving Repr, DecidableEq

/-- The upstream state one resolution run observes: the two tag-listing
responses (`none` when the fetch fails) and the registry's answer to each
possible manifest-inspection invocation. -/
structure RegistryState where
  bitnamiTags : Option (List TagRecord)
  paradedbTags : Option (List TagRecord)
  manifestInspect : String → InspectOutcome

/-- JavaScript `String.prototype.split("/")` on character lists. -/
def splitSlash : List Char → List (List Char)
  | [] => [[]]
  | c :: cs =>
    let r := splitSlash cs
    if c = '/' then [] :: r
    else
      match r with
      | h :: t => (c :: h) :: t
      | [] => [[c]]

/-- The registry namespace `{registry}/{repoName}` of `getVars.ts`:
`REGISTRY` defaulting to `ghcr.io`, and `REPO_NAME` defaulting to the last
path component of the git repository root. -/
def registryNamespace (env : EnvVars) (gitRepoRoot : String) : String :=
  env.registryVar.getD "ghcr.io" ++ "/" ++
    env.repoNameVar.getD
      (((splitSlash gitRepoRoot.data).getLast?.map String.mk).getD
        "unknown-repo")

/-- The effective major version line: the argument when supplied, otherwise
the `PG_MAJOR_VERSION` environment variable
(`pgMajorVersionInput ?? Bun.env.PG_MAJOR_VERSION`). -/
def effectiveMajorVersion (arg : Option String) (env : EnvVars) :
    Option String :=
  match arg with
  | some s => some s
  | none => env.pgMajorVersionVar

/-- The result record of `getVars` (interface `ImageVars`), with the fields
of the revision exercised by `getVars.test.ts` and consumed by
`build.ts`. -/
structure ImageVars where
  bitnamiName : String
  pgvectorBaseVersion : String
  pgSearchName : String
  fullImageTag : String
  tagShort : String
  tagWithFullPostgresVersion : String
  tagLatestPg : String
  pgvectorBuilderTag : String
  versionHash : String
  versionsHashTag : String
  imageExists : Bool
deriving Repr, DecidableEq

/-- The two ways a resolution run terminates the process with a non-zero
exit: the explicit `process.exit(1)` on a falsy major version, and the
rejection of the run's promise when the unguarded Bun shell invocation of
`git rev-parse --show-toplevel` throws on a non-zero exit status (the
script has no try/catch around it, so the `import.meta.main` handler — or
`build.ts` — exits non-zero). -/
inductive RunAbort where
  | missingMajorVersion
  | gitInvocationFailed
deriving Repr, DecidableEq

/-- One resolution run of `getVars`, as a pure function of the argument, the
environment, the upstream registry state and the outcome of the
`git rev-parse --show-toplevel` invocation — `Except.ok` carrying the
trimmed standard output on exit status 0, `Except.error ()` the thrown
shell error on any other status.  The run aborts with
`RunAbort.missingMajorVersion` exactly when the effective major version is
falsy (checked first, via `process.exit(1)`), and with
`RunAbort.gitInvocationFailed` when the git invocation throws (the throw is
unguarded in the source, so it escapes the run).  The label composition,
hash and existence check follow `getVars.test.ts` and `build.ts`; the
pg_search selection and the hash tag are modelled from the spec since that
revision of the script is absent from the snapshot. -/
def getVars (arg : Option String) (env : EnvVars) (reg : RegistryState)
    (gitToplevel : Except Unit String) : Except RunAbort ImageVars :=
  match effectiveMajorVersion arg env with
  | none => .error .missingMajorVersion
  | some line =>
    if line = "" then .error .missingMajorVersion
    else
      let bitnamiName := (resolveBitnamiName reg.bitnamiTags line).1
      let pgvectorName := env.pgvectorVersionVar.getD DEFAULT_PGVECTOR_VERSION
      let pgSearchName := (selectPgSearchName reg.paradedbTags line).1
      match gitToplevel with
      | .error _ => .error .gitInvocationFailed
      | .ok gitRepoRoot =>
      let ns := registryNamespace env gitRepoRoot
      let versionHash := versionFingerprint line pgvectorName pgSearchName
      let versionsHashTag := ns ++ ":" ++ ("sha-" ++ versionHash)
      .ok
        { bitnamiName := bitnamiName
          pgvectorBaseVersion := pgvectorName
          pgSearchName := pgSearchName
          fullImageTag :=
            ns ++ ":" ++ (pgvectorName ++ "-pg" ++ line ++ "-" ++ bitnamiName)
          tagShort := ns ++ ":" ++ (pgvectorName ++ "-pg" ++ line)
          tagWithFullPostgresVersion :=
            ns ++ ":" ++ (pgvectorName ++ "-pg" ++ line ++ "-postgres" ++ line)
          tagLatestPg := ns ++ ":" ++ ("latest-pg" ++ line)
          pgvectorBuilderTag := pgvectorName ++ "-pg" ++ line
          versionHash := versionHash
          versionsHashTag := versionsHashTag
          imageExists := checkImageExists (reg.manifestInspect versionsHashTag) }

/-- The resolved version set delivered by a completed run. -/
def resolvedSetOf (line : String) (v : ImageVars) : ResolvedVersionSet :=
  { majorVersionLine := line
    baseComponentTag := v.bitnamiName
    extensionATag := v.pgvectorBaseVersion
    extensionBTag := v.pgSearchName }

/-- Model of the skip decision in `runBuild` (`src/build.ts`): the value is
`true` exactly when the `docker buildx build` command is executed, `false`
when the run returns early because the image exists and `--push` was
given. -/
def runBuildDecision (vars : ImageVars) (push : Bool) : Bool :=
  !(vars.imageExists && push)

/-! ## Helper lemmas on string appends and non-emptiness -/

theorem strAppend_inj_right {a b c : String} (h : a ++ b = a ++ c) : b = c := by
  have hd := congrArg String.data h
  rw [String.data_append, String.data_append] at hd
  exact String.ext (List.append_cancel_left hd)

theorem strAppend_inj_left {a b c : String} (h : a ++ c = b ++ c) : a = b := by
  have hd := congrArg String.data h
  rw [String.data_append, String.data_append] at hd
  exact String.ext (List.append_cancel_right hd)

theorem strAppend_ne_empty_left (a b : String) (ha : a ≠ "") :
    a ++ b ≠ "" := by
  intro h
  have hd := congrArg String.data h
  rw [String.data_append] at hd
  exact ha (String.ext (List.append_eq_nil.mp hd).1)

theorem strStartsWith_ne_empty {s p : String}
    (h : strStartsWith s p = true) (hp : p.data ≠ []) : s ≠ "" := by
  intro hs
  subst hs
  unfold strStartsWith at h
  rw [ List.isPrefixOf_iff_prefix] at h
  exact hp (List.prefix_nil.mp h)

theorem strEndsWith_ne_empty {s p : String}
    (h : strEndsWith s p = true) (hp : p.data ≠ []) : s ≠ "" := by
  intro hs
  subst hs
  unfold strEndsWith at h
  rw [List.isSuffixOf_iff_suffix] at h
  exact hp (List.suffix_nil.mp h)

/-- Whatever the upstream state, the resolved base tag is a non-empty
string: a selected tag starts with the non-empty prefix `{line}.`, and the
default is a non-empty literal. -/
theorem resolveBitnamiName_fst_ne_empty (response : Option (List TagRecord))
    (line : String) : (resolveBitnamiName response line).1 ≠ "" := by
  cases response with
  | none =>
    have h : resolveBitnamiName none line =
        (DEFAULT_BITNAMI_POSTGRES_VERSION, true) := rfl
    rw [h]
    decide
  | some tags =>
    cases hs : sortByLastModifiedDesc (tags.filter (isBitnamiSurvivor line)) with
    | nil =>
      have h : resolveBitnamiName (some tags) line =
          (DEFAULT_BITNAMI_POSTGRES_VERSION, true) := by
        simp [resolveBitnamiName, fetchLatestBitnamiTag, hs]
      rw [h]
      decide
    | cons t rest =>
      have h : resolveBitnamiName (some tags) line = (t.name, false) := by
        simp [resolveBitnamiName, fetchLatestBitnamiTag, hs]
      rw [h]
      have ht := (sortByLastModifiedDesc_head_max _ t rest hs).1
      have hsurv := (List.mem_filter.mp ht).2
      have hpre := (Bool.and_eq_true_iff.mp hsurv).1
      refine strStartsWith_ne_empty hpre ?_
      rw [String.data_append]
      simp

/-- Whatever the upstream state, the resolved pg_search tag is a non-empty
string: every tier of the fallback produces either a tag ending in the
non-empty suffix `-pg{line}`, the non-empty alias, or the non-empty default
literal. -/
theorem selectPgSearchName_fst_ne_empty (response : Option (List TagRecord))
    (line : String) : (selectPgSearchName response line).1 ≠ "" := by
  have hsuf : (pgSuffix line).data ≠ [] := by
    unfold pgSuffix
    rw [String.data_append]
    simp
  unfold selectPgSearchName
  cases response with
  | none =>
    exact strAppend_ne_empty_left DEFAULT_PG_SEARCH_VERSION (pgSuffix line)
      (by decide)
  | some tags =>
    cases hs : sortByLastModifiedDesc
        ((tags.filter fun t => strEndsWith t.name (pgSuffix line)).filter
          fun t => isStablePgSearchName (pgSuffix line) t.name) with
    | cons t rest =>
      simp only [hs]
      have ht := (sortByLastModifiedDesc_head_max _ t rest hs).1
      have hstab := (List.mem_filter.mp ht).2
      exact strEndsWith_ne_empty (isStablePgSearchName_endsWith hstab) hsuf
    | nil =>
      simp only [hs]
      by_cases hany : ((tags.filter fun t => strEndsWith t.name (pgSuffix line)).any
          fun t => t.name == "latest" ++ pgSuffix line) = true
      · simp only [hany, if_true]
        exact strAppend_ne_empty_left "latest" (pgSuffix line) (by decide)
      · simp only [Bool.not_eq_true] at hany
        simp only [hany]
        simp only [Bool.false_eq_true, if_false]
        exact strAppend_ne_empty_left DEFAULT_PG_SEARCH_VERSION (pgSuffix line)
          (by decide)

/-! ## Demonstration fixtures (concrete inputs used by the witnesses) -/

/-- A concrete Bitnami tag listing with two Debian tags of line 17. -/
def demoBitnamiTags : List TagRecord :=
  [⟨"17.1.0-debian-11-r5", 100⟩, ⟨"17.2.0-debian-12-r1", 200⟩,
   ⟨"17.0.0-debian-12-r10", 50⟩]

/-- A concrete ParadeDB tag listing matching the test scenario for line
17. -/
def demoParadeTags : List TagRecord :=
  [⟨"0.15.19-rc.0-pg17", 427⟩, ⟨"latest-pg17", 426⟩,
   ⟨"0.15.18-pg17", 425⟩, ⟨"0.15.17-pg17", 420⟩]

/-- A concrete upstream state: both listings available, every manifest
inspection exiting with status 1 (image absent). -/
def demoRegistry : RegistryState :=
  ⟨some demoBitnamiTags, some demoParadeTags, fun _ => .exited 1⟩

/-- A concrete environment pointing at the namespace `registry/repo`, with
no version overrides. -/
def demoEnv : EnvVars := ⟨none, none, some "registry", some "repo"⟩

/-! ## Claim theorems -/

/-- **C7.** The existence check returns `true` exactly when the registry
inspection exits with status 0; any non-zero exit status and any thrown
invocation error yield `false`, and being a total Boolean function the check
propagates no error to its caller. -/
theorem existence_check_exit_code (outcome : InspectOutcome) :
    checkImageExists outcome = true ↔ outcome = InspectOutcome.exited 0 := by
  cases outcome with
  | exited code => simp [checkImageExists]
  | threw => simp [checkImageExists]

/-- **C10.** The build orchestration skips the artifact build exactly when
the image already exists and `--push` was supplied; when the image exists
without `--push`, and whenever the image does not exist, the build command
still runs. -/
theorem build_skip_decision (vars : ImageVars) (push : Bool) :
    (runBuildDecision vars push = false ↔
      vars.imageExists = true ∧ push = true) ∧
    (vars.imageExists = true → push = false →
      runBuildDecision vars push = true) ∧
    (vars.imageExists = false → runBuildDecision vars push = true) := by
  unfold runBuildDecision
  cases vars.imageExists <;> cases push <;> simp

/-- Witness for `build_skip_decision`: with an existing image and no
`--push`, the build concretely still runs. -/
theorem build_skip_decision_witness :
    runBuildDecision ⟨"", "", "", "", "", "", "", "", "", "", true⟩ false =
      true :=
  (build_skip_decision ⟨"", "", "", "", "", "", "", "", "", "", true⟩
    false).2.1 rfl rfl

/-- **C2.** Resolution is deterministic and stateless: two runs over the
same major-version argument, environment overrides and upstream registry
state produce the same `ImageVars` record and byte-identical version
fingerprints; the run is a pure function of these inputs, so no state can be
carried between runs. -/
theorem resolution_deterministic (arg1 arg2 : Option String)
    (env1 env2 : EnvVars) (reg1 reg2 : RegistryState)
    (git1 git2 : Except Unit String)
    (harg : arg1 = arg2) (henv : env1 = env2) (hreg : reg1 = reg2)
    (hgit : git1 = git2) :
    getVars arg1 env1 reg1 git1 = getVars arg2 env2 reg2 git2 ∧
    (getVars arg1 env1 reg1 git1).map (fun v => v.versionHash) =
      (getVars arg2 env2 reg2 git2).map (fun v => v.versionHash) := by
  subst harg henv hreg hgit
  exact ⟨rfl, rfl⟩

/-- Witness for `resolution_deterministic` at a concrete run. -/
theorem resolution_deterministic_witness :
    getVars (some "17") demoEnv demoRegistry (Except.ok "/w/bitnami-pgvector") =
      getVars (some "17") demoEnv demoRegistry (Except.ok "/w/bitnami-pgvector") :=
  (resolution_deterministic (some "17") (some "17") demoEnv demoEnv
    demoRegistry demoRegistry (Except.ok "/w/bitnami-pgvector")
    (Except.ok "/w/bitnami-pgvector") rfl rfl rfl rfl).1

deriving instance DecidableEq for Except

/-- The concrete result of the demonstration run
`getVars (some "17") demoEnv demoRegistry (Except.ok "/w/bitnami-pgvector")`. -/
def demoVars : ImageVars :=
  { bitnamiName := "17.2.0-debian-12-r1"
    pgvectorBaseVersion := "0.8.0"
    pgSearchName := "0.15.18-pg17"
    fullImageTag := "registry/repo:0.8.0-pg17-17.2.0-debian-12-r1"
    tagShort := "registry/repo:0.8.0-pg17"
    tagWithFullPostgresVersion := "registry/repo:0.8.0-pg17-postgres17"
    tagLatestPg := "registry/repo:latest-pg17"
    pgvectorBuilderTag := "0.8.0-pg17"
    versionHash :=
      "06ae7b01bca9b86c33f89829c5379ef7bc7246d0beafa68cd9f384428dcca54b"
    versionsHashTag :=
      "registry/repo:sha-06ae7b01bca9b86c33f89829c5379ef7bc7246d0beafa68cd9f384428dcca54b"
    imageExists := false }

/-- **C3 (amended).** The fingerprint is a function of only the three
semantic version fields: two resolved sets agreeing on the major line and
the two extension tags have equal fingerprints whatever their base component
tag (the incidental field excluded from the canonical string); and changing
exactly one of the three semantic fields while the other two stay fixed
changes the canonical delimited string (so the fingerprints differ unless
the 256-bit digest collides on the two distinct canonical strings). -/
theorem fingerprint_semantic_dependency (r1 r2 : ResolvedVersionSet) :
    (r1.majorVersionLine = r2.majorVersionLine →
      r1.extensionATag = r2.extensionATag →
      r1.extensionBTag = r2.extensionBTag →
      fingerprint r1 = fingerprint r2) ∧
    (r1.extensionATag = r2.extensionATag →
      r1.extensionBTag = r2.extensionBTag →
      r1.majorVersionLine ≠ r2.majorVersionLine →
      canonicalVersionString r1 ≠ canonicalVersionString r2) ∧
    (r1.majorVersionLine = r2.majorVersionLine →
      r1.extensionBTag = r2.extensionBTag →
      r1.extensionATag ≠ r2.extensionATag →
      canonicalVersionString r1 ≠ canonicalVersionString r2) ∧
    (r1.majorVersionLine = r2.majorVersionLine →
      r1.extensionATag = r2.extensionATag →
      r1.extensionBTag ≠ r2.extensionBTag →
      canonicalVersionString r1 ≠ canonicalVersionString r2) := by
  refine ⟨?_, ?_, ?_, ?_⟩
  · intro h1 h2 h3
    unfold fingerprint canonicalVersionString
    rw [h1, h2, h3]
  · intro hA hB hL hc
    unfold canonicalVersionString at hc
    rw [← hA, ← hB] at hc
    simp only [String.append_assoc] at hc
    exact hL (strAppend_inj_left (strAppend_inj_right hc))
  · intro hL hB hA hc
    unfold canonicalVersionString at hc
    rw [← hL, ← hB] at hc
    simp only [String.append_assoc] at hc
    have h1 := strAppend_inj_right hc
    have h2 := strAppend_inj_right h1
    have h3 := strAppend_inj_right h2
    exact hA (strAppend_inj_left h3)
  · intro hL hA hB hc
    unfold canonicalVersionString at hc
    rw [← hL, ← hA] at hc
    simp only [String.append_assoc] at hc
    have h1 := strAppend_inj_right hc
    have h2 := strAppend_inj_right h1
    have h3 := strAppend_inj_right h2
    have h4 := strAppend_inj_right h3
    exact hB (strAppend_inj_right h4)

/-- Witness for `fingerprint_semantic_dependency`: two sets differing only
in the incidental base component tag concretely share the fingerprint. -/
theorem fingerprint_semantic_dependency_witness :
    fingerprint ⟨"17", "17.2.0-debian-12-r1", "0.8.0", "0.15.18-pg17"⟩ =
      fingerprint ⟨"17", "another-base-tag", "0.8.0", "0.15.18-pg17"⟩ :=
  (fingerprint_semantic_dependency
    ⟨"17", "17.2.0-debian-12-r1", "0.8.0", "0.15.18-pg17"⟩
    ⟨"17", "another-base-tag", "0.8.0", "0.15.18-pg17"⟩).1 rfl rfl rfl

/-- **C3 counterexample.** Two resolved sets that differ in both extension
fields while the delimiter-containing field contents realign the canonical
string: the canonical strings coincide, so the fingerprints coincide,
refuting the claim that any difference in a semantic field changes the
canonical string and the fingerprint. -/
theorem fingerprint_collision_distinct_semantic_fields :
    (ResolvedVersionSet.mk "1" "b" "2-pgsearch:3" "4").extensionATag ≠
      (ResolvedVersionSet.mk "1" "b" "2" "3-pgsearch:4").extensionATag ∧
    canonicalVersionString (ResolvedVersionSet.mk "1" "b" "2-pgsearch:3" "4") =
      canonicalVersionString (ResolvedVersionSet.mk "1" "b" "2" "3-pgsearch:4") ∧
    fingerprint (ResolvedVersionSet.mk "1" "b" "2-pgsearch:3" "4") =
      fingerprint (ResolvedVersionSet.mk "1" "b" "2" "3-pgsearch:4") := by
  refine ⟨by decide, by decide, ?_⟩
  unfold fingerprint
  have h : canonicalVersionString
      (ResolvedVersionSet.mk "1" "b" "2-pgsearch:3" "4") =
      canonicalVersionString (ResolvedVersionSet.mk "1" "b" "2" "3-pgsearch:4") := by
    decide
  rw [h]

/-- **C4.** The existence check of every completed resolution run is invoked
with the content-hash label — the fully-qualified label whose tag part is
`sha-` followed by the fingerprint — and `imageExists` is exactly the
check's result on that label. -/
theorem existence_gate_uses_hash_label (arg : Option String) (env : EnvVars)
    (reg : RegistryState) (gitToplevel : Except Unit String) (v : ImageVars)
    (h : getVars arg env reg gitToplevel = .ok v) :
    (∃ root, gitToplevel = Except.ok root ∧
      v.versionsHashTag =
        registryNamespace env root ++ ":" ++ ("sha-" ++ v.versionHash)) ∧
    v.imageExists = checkImageExists (reg.manifestInspect v.versionsHashTag) := by
  cases gitToplevel with
  | error e =>
    exfalso
    unfold getVars at h
    split at h
    · exact Except.noConfusion h
    · split at h
      · exact Except.noConfusion h
      · exact Except.noConfusion h
  | ok root =>
    unfold getVars at h
    split at h
    · exact Except.noConfusion h
    · split at h
      · exact Except.noConfusion h
      · injection h with h
        subst h
        exact ⟨⟨root, rfl, rfl⟩, rfl⟩

/-- Witness for `existence_gate_uses_hash_label` at the demonstration
run. -/
theorem existence_gate_uses_hash_label_witness :
    demoVars.imageExists =
      checkImageExists (demoRegistry.manifestInspect demoVars.versionsHashTag) :=
  (existence_gate_uses_hash_label (some "17") demoEnv demoRegistry
    (Except.ok "/w/bitnami-pgvector") demoVars (by decide)).2

/-- **C6 (amended).** The run terminates the process with a non-zero exit
exactly when the effective major-version value — the argument when one is
supplied, otherwise the environment variable — is missing or empty (the
`process.exit(1)` path, checked first), or when the unguarded
`git rev-parse --show-toplevel` invocation fails, whose thrown error
escapes the run and exits the process non-zero.  Nothing else aborts: a
run with a usable major version and a successful git invocation always
completes, whatever the upstream tag-fetch outcomes (which degrade to the
documented defaults with warnings, per the selection theorems). -/
theorem fatal_iff_effective_missing (arg : Option String) (env : EnvVars)
    (reg : RegistryState) (gitToplevel : Except Unit String) :
    (getVars arg env reg gitToplevel = .error RunAbort.missingMajorVersion ↔
      (effectiveMajorVersion arg env = none ∨
        effectiveMajorVersion arg env = some "")) ∧
    (getVars arg env reg gitToplevel = .error RunAbort.gitInvocationFailed ↔
      (¬(effectiveMajorVersion arg env = none ∨
          effectiveMajorVersion arg env = some "") ∧
        gitToplevel = Except.error ())) ∧
    ((∃ v, getVars arg env reg gitToplevel = .ok v) ↔
      (¬(effectiveMajorVersion arg env = none ∨
          effectiveMajorVersion arg env = some "") ∧
        (∃ root, gitToplevel = Except.ok root))) := by
  unfold getVars
  cases hm : effectiveMajorVersion arg env with
  | none => simp
  | some line =>
    by_cases hline : line = ""
    · subst hline
      simp
    · cases gitToplevel with
      | error e =>
        cases e
        simp [hline]
      | ok root =>
        simp [hline]

/-- **C6 counterexample.** Two concrete runs abort although the claim
permits an abort only when the major-version input is absent from both the
argument and the environment: an empty-string argument is fatal while the
environment variable holds `17`, and a failing `git rev-parse` invocation
aborts a run whose major version `17` was supplied as the argument. -/
theorem fatal_despite_env_present :
    getVars (some "") ⟨some "17", none, none, none⟩
        ⟨none, none, fun _ => InspectOutcome.threw⟩ (Except.ok "") =
      .error RunAbort.missingMajorVersion ∧
    (⟨some "17", none, none, none⟩ : EnvVars).pgMajorVersionVar =
      some "17" ∧
    getVars (some "17") ⟨none, none, none, none⟩
        ⟨none, none, fun _ => InspectOutcome.threw⟩ (Except.error ()) =
      .error RunAbort.gitInvocationFailed :=
  ⟨rfl, rfl, rfl⟩

/-- **C8.** Label composition is pure string concatenation sharing the
`{registryNamespace}:` prefix on every label, and for the resolved set
`{line 17, base 17.2.0-debian-12-r1, extension A 0.8.0}` under the namespace
`registry/repo` it yields the short label `registry/repo:0.8.0-pg17`, the
fully-qualified label `registry/repo:0.8.0-pg17-17.2.0-debian-12-r1` and the
major-line alias label `registry/repo:latest-pg17`. -/
theorem composed_labels (arg : Option String) (env : EnvVars)
    (reg : RegistryState) (gitToplevel : Except Unit String) :
    (∀ v, getVars arg env reg gitToplevel = .ok v →
      ∃ root, gitToplevel = Except.ok root ∧
        ∃ s1 s2 s3 s4 s5,
          v.tagShort = registryNamespace env root ++ ":" ++ s1 ∧
          v.fullImageTag = registryNamespace env root ++ ":" ++ s2 ∧
          v.tagLatestPg = registryNamespace env root ++ ":" ++ s3 ∧
          v.tagWithFullPostgresVersion =
            registryNamespace env root ++ ":" ++ s4 ∧
          v.versionsHashTag = registryNamespace env root ++ ":" ++ s5) ∧
    (getVars (some "17") demoEnv demoRegistry
        (Except.ok "/w/bitnami-pgvector")).toOption.map
        (fun v => v.tagShort) = some "registry/repo:0.8.0-pg17" ∧
    (getVars (some "17") demoEnv demoRegistry
        (Except.ok "/w/bitnami-pgvector")).toOption.map
        (fun v => v.fullImageTag) =
      some "registry/repo:0.8.0-pg17-17.2.0-debian-12-r1" ∧
    (getVars (some "17") demoEnv demoRegistry
        (Except.ok "/w/bitnami-pgvector")).toOption.map
        (fun v => v.tagLatestPg) = some "registry/repo:latest-pg17" := by
  refine ⟨?_, by decide, by decide, by decide⟩
  intro v h
  cases gitToplevel with
  | error e =>
    exfalso
    unfold getVars at h
    split at h
    · exact Except.noConfusion h
    · split at h
      · exact Except.noConfusion h
      · exact Except.noConfusion h
  | ok root =>
    unfold getVars at h
    split at h
    · exact Except.noConfusion h
    · split at h
      · exact Except.noConfusion h
      · injection h with h
        subst h
        exact ⟨root, rfl, _, _, _, _, _, rfl, rfl, rfl, rfl, rfl⟩

/-- Witness for `composed_labels`: the prefix-sharing clause applied to the
demonstration run. -/
theorem composed_labels_witness :
    ∃ root, (Except.ok "/w/bitnami-pgvector" : Except Unit String) =
        Except.ok root ∧
      ∃ s1 s2 s3 s4 s5,
        demoVars.tagShort = registryNamespace demoEnv root ++ ":" ++ s1 ∧
        demoVars.fullImageTag = registryNamespace demoEnv root ++ ":" ++ s2 ∧
        demoVars.tagLatestPg = registryNamespace demoEnv root ++ ":" ++ s3 ∧
        demoVars.tagWithFullPostgresVersion =
          registryNamespace demoEnv root ++ ":" ++ s4 ∧
        demoVars.versionsHashTag =
          registryNamespace demoEnv root ++ ":" ++ s5 :=
  (composed_labels (some "17") demoEnv demoRegistry
    (Except.ok "/w/bitnami-pgvector")).1 demoVars (by decide)

/-- **C9 (amended).** Every completed resolution run delivers a fully
populated result: the major line is non-empty, and the base tag, the
pgvector version and the pg_search tag are all non-empty — provided the
optional pgvector override variable, when set, is itself non-empty (the
code uses an empty override verbatim). -/
theorem resolved_fields_nonempty (arg : Option String) (env : EnvVars)
    (reg : RegistryState) (gitToplevel : Except Unit String) (v : ImageVars)
    (hover : env.pgvectorVersionVar ≠ some "")
    (h : getVars arg env reg gitToplevel = .ok v) :
    ∃ line, effectiveMajorVersion arg env = some line ∧ line ≠ "" ∧
      v.bitnamiName ≠ "" ∧ v.pgvectorBaseVersion ≠ "" ∧
      v.pgSearchName ≠ "" := by
  cases gitToplevel with
  | error e =>
    exfalso
    unfold getVars at h
    split at h
    · exact Except.noConfusion h
    · split at h
      · exact Except.noConfusion h
      · exact Except.noConfusion h
  | ok root =>
    unfold getVars at h
    split at h
    · exact Except.noConfusion h
    · rename_i line hm
      split at h
      · exact Except.noConfusion h
      · rename_i hline
        injection h with h
        subst h
        refine ⟨line, hm, hline, resolveBitnamiName_fst_ne_empty _ _, ?_,
          selectPgSearchName_fst_ne_empty _ _⟩
        show env.pgvectorVersionVar.getD DEFAULT_PGVECTOR_VERSION ≠ ""
        cases how : env.pgvectorVersionVar with
        | none => decide
        | some s =>
          intro heq
          apply hover
          rw [how]
          simp only [Option.getD] at heq
          rw [heq]

/-- Witness for `resolved_fields_nonempty` at the demonstration run. -/
theorem resolved_fields_nonempty_witness :
    ∃ line, effectiveMajorVersion (some "17") demoEnv = some line ∧
      line ≠ "" ∧ demoVars.bitnamiName ≠ "" ∧
      demoVars.pgvectorBaseVersion ≠ "" ∧ demoVars.pgSearchName ≠ "" :=
  resolved_fields_nonempty (some "17") demoEnv demoRegistry
    (Except.ok "/w/bitnami-pgvector") demoVars (by decide) (by decide)

/-- **C9 counterexample.** Setting the pgvector override variable to the
empty string makes the run complete with an empty `pgvectorBaseVersion`
field, refuting the unconditional non-emptiness claim. -/
theorem empty_override_empty_field :
    (getVars (some "17") ⟨none, some "", none, none⟩
        ⟨none, none, fun _ => InspectOutcome.exited 1⟩
        (Except.ok "r")).toOption.map
      (fun v => v.pgvectorBaseVersion) = some "" := by
  decide
